import Mathlib

/-!
# Attention detector: evaluator and metric publisher

Shallow embedding of the attention-aggregation and metric-persistence
pipeline of the repository:

* `src/attention_detector/utils/helpers.py` — the attention decision
  (`draw_gaze`), the running counters updated per face
  (`draw_bbox_gaze`), and the per-frame stats publication (`draw_stats`);
* `src/attention_detector/utils/file_writer.py` — the queue and the
  background worker (`percentage_writer`) that persists the latest
  percentage to `percentage.txt`.

Python floats are modelled as real numbers where a square root occurs
(the gaze deviation) and as rationals where the arithmetic is
field arithmetic (the percentage); Python's unbounded int counters are
naturals.  The worker thread is modelled as a function draining an
explicit queue (a list), with the outcome of each file-write attempt
given by an environment oracle `env : ℕ → Bool` (`true` = the write
succeeds, `false` = `open`/`write` raises and the `except` branch runs).
-/

namespace AttentionDetector

/-- The process-wide running counters, `helpers.py` lines 23-25:
`looks_count = 0`, `no_looks_count = 0`, `total_faces = 0`. -/
structure Counters where
  looks_count : ℕ
  no_looks_count : ℕ
  total_faces : ℕ
deriving DecidableEq

/-- Counter state at process start: all three globals are zero. -/
def initCounters : Counters := ⟨0, 0, 0⟩

/-- Angular deviation from the camera, `helpers.py` line 117:
`deviation = np.sqrt(pitch**2 + yaw**2)`.  Real-valued, hence
noncomputable; the decision below is a proposition about it. -/
noncomputable def deviation (pitch yaw : ℝ) : ℝ :=
  Real.sqrt (pitch ^ 2 + yaw ^ 2)

/-- The attention decision returned by `draw_gaze`, `helpers.py`
lines 98-145.  The drawing side effects (text, circle, arrowed line) act
on an opaque frame and are dropped; the returned value is
`deviation <= attention_threshold` (line 145).  The bounding box is kept
as an argument to record that the decision does not depend on it. -/
def draw_gaze (_bbox : ℤ × ℤ × ℤ × ℤ) (pitch yaw : ℝ)
    (attention_threshold : ℝ) : Prop :=
  deviation pitch yaw ≤ attention_threshold

/-- The counter update performed by `draw_bbox_gaze`, `helpers.py`
lines 187-192, with the attention decision obtained from `draw_gaze`
passed as a boolean: `total_faces += 1`, then `looks_count += 1` when
looking, else `no_looks_count += 1`. -/
def draw_bbox_gaze (c : Counters) (is_looking : Bool) : Counters :=
  { looks_count := if is_looking then c.looks_count + 1 else c.looks_count
    no_looks_count := if is_looking then c.no_looks_count else c.no_looks_count + 1
    total_faces := c.total_faces + 1 }

/-- A sequence of per-face recording calls: `draw_bbox_gaze` folded over
the list of attention decisions, one per detected face. -/
def recordAll (c : Counters) (l : List Bool) : Counters :=
  l.foldl draw_bbox_gaze c

/-- The percentage computed by `draw_stats`, `helpers.py` lines 203-205:
`looking_percentage = 0`; `if total_faces > 0: looking_percentage =
(looks_count / total_faces) * 100`. -/
def looking_percentage (c : Counters) : ℚ :=
  if 0 < c.total_faces then ((c.looks_count : ℚ) / (c.total_faces : ℚ)) * 100
  else 0

/-- `draw_stats`, `helpers.py` lines 196-228: reads the counters,
computes `looking_percentage`, and puts it on `percentage_queue`
(line 208).  The overlay drawing acts on an opaque frame and is dropped.
The queue holds `Option ℚ` because the Python queue carries floats and
the `None` sentinel. -/
def draw_stats (c : Counters) (q : List (Option ℚ)) :
    Counters × List (Option ℚ) :=
  (c, q ++ [some (looking_percentage c)])

/-- The persisted text of a percentage, `file_writer.py` line 21:
`f"{percentage:.1f}"` — the value formatted to one decimal place.  The
binary-float rounding of CPython is approximated by exact rational
rounding to the nearest tenth. -/
def format1 (q : ℚ) : String :=
  toString (⌊10 * q + 1 / 2⌋ / 10) ++ "." ++ toString (⌊10 * q + 1 / 2⌋ % 10)

/-- The state of the publisher worker: the contents of
`../percentage.txt` (`none` = the file has not been written yet), the
trace of completed writes in order, the error messages printed by the
`except` branch, and whether the worker has exited its loop. -/
structure WriterState where
  file : Option String
  writes : List String
  errorLog : List String
  stopped : Bool
deriving DecidableEq

/-- Worker state before any sample is processed. -/
def initWriter : WriterState := ⟨none, [], [], false⟩

/-- The message printed on a write failure, `file_writer.py` line 23. -/
def errMsg : String := "Error writing to file"

/-- The worker loop of `file_writer.py` lines 9-26, draining a queue:
`percentage = percentage_queue.get()`; `if percentage is None: break`;
otherwise try to write `f"{percentage:.1f}"`, and on an exception print
an error and continue.  `env i` is the outcome of the `i`-th write
attempt (`false` = `open`/`write` raises before anything is written, as
on a permission error or missing path).  An exhausted list models the
worker blocked on an empty queue, holding its current state. -/
def percentage_writer (env : ℕ → Bool) :
    WriterState → ℕ → List (Option ℚ) → WriterState
  | s, _, [] => s
  | s, _, none :: _ => { s with stopped := true }
  | s, i, some p :: rest =>
    if env i then
      percentage_writer env
        { s with file := some (format1 p), writes := s.writes ++ [format1 p] }
        (i + 1) rest
    else
      percentage_writer env
        { s with errorLog := s.errorLog ++ [errMsg] } (i + 1) rest

/-- Auxiliary: the cumulative effect on the worker state of a run of
consecutive successful writes, used to characterise `percentage_writer`
on a queue segment of samples.  Each step is exactly the success branch
of the worker loop. -/
def writeAll : WriterState → List ℚ → WriterState
  | s, [] => s
  | s, p :: rest =>
    writeAll
      { s with file := some (format1 p), writes := s.writes ++ [format1 p] }
      rest

/-- The file states a concurrent reader can observe during one write,
`file_writer.py` lines 20-21: `open(filepath, 'w')` first truncates the
file to empty, then `f.write(...)` fills in the new contents.  The
observable sequence for a successful write is therefore: previous
contents, empty file, new contents. -/
def overwriteObservable (prev next : String) : List String :=
  [prev, "", next]

/-- A Python/IEEE-754 double as a special-value model: NaN, a signed
infinity, or a finite value (the finite mantissa arithmetic modelled
exactly by a real).  Used to trace `draw_gaze` on non-finite gaze
angles. -/
inductive PyFloat where
  | nan : PyFloat
  | posInf : PyFloat
  | negInf : PyFloat
  | fin : ℝ → PyFloat

/-- A non-finite float: NaN or an infinity. -/
def PyFloat.nonfinite : PyFloat → Prop
  | .nan => True
  | .posInf => True
  | .negInf => True
  | .fin _ => False

/-- IEEE multiplication: NaN is absorbing, infinity times zero is NaN,
infinity times a nonzero finite value is a signed infinity. -/
noncomputable def PyFloat.mul : PyFloat → PyFloat → PyFloat
  | .nan, _ => .nan
  | _, .nan => .nan
  | .posInf, .posInf => .posInf
  | .posInf, .negInf => .negInf
  | .negInf, .posInf => .negInf
  | .negInf, .negInf => .posInf
  | .posInf, .fin y => if y = 0 then .nan else if 0 < y then .posInf else .negInf
  | .fin x, .posInf => if x = 0 then .nan else if 0 < x then .posInf else .negInf
  | .negInf, .fin y => if y = 0 then .nan else if 0 < y then .negInf else .posInf
  | .fin x, .negInf => if x = 0 then .nan else if 0 < x then .negInf else .posInf
  | .fin x, .fin y => .fin (x * y)

/-- IEEE addition: NaN is absorbing and opposite infinities give NaN. -/
noncomputable def PyFloat.add : PyFloat → PyFloat → PyFloat
  | .nan, _ => .nan
  | _, .nan => .nan
  | .posInf, .negInf => .nan
  | .negInf, .posInf => .nan
  | .posInf, _ => .posInf
  | _, .posInf => .posInf
  | .negInf, _ => .negInf
  | _, .negInf => .negInf
  | .fin x, .fin y => .fin (x + y)

/-- IEEE ordered comparison `<=`: any comparison with NaN is false. -/
def PyFloat.le : PyFloat → PyFloat → Prop
  | .nan, _ => False
  | _, .nan => False
  | .negInf, _ => True
  | _, .negInf => False
  | .posInf, .posInf => True
  | .posInf, .fin _ => False
  | .fin _, .posInf => True
  | .fin x, .fin y => x ≤ y

/-- `np.sin`: NaN on any non-finite argument (numpy emits a warning, not
an exception, for `sin(inf)`), the real sine on a finite one. -/
noncomputable def npSin : PyFloat → PyFloat
  | .fin x => .fin (Real.sin x)
  | _ => .nan

/-- `np.cos`: NaN on any non-finite argument, the real cosine on a
finite one. -/
noncomputable def npCos : PyFloat → PyFloat
  | .fin x => .fin (Real.cos x)
  | _ => .nan

/-- `np.sqrt`: NaN stays NaN, `sqrt(inf) = inf`, `sqrt(-inf)` and the
square root of a negative are NaN. -/
noncomputable def npSqrt : PyFloat → PyFloat
  | .nan => .nan
  | .posInf => .posInf
  | .negInf => .nan
  | .fin x => if x < 0 then .nan else .fin (Real.sqrt x)

/-- Python `int(float)`: raises `ValueError` on NaN and `OverflowError`
on an infinity (`none`), truncates toward zero on a finite value. -/
noncomputable def PyFloat.toIntOption : PyFloat → Option ℤ
  | .nan => none
  | .posInf => none
  | .negInf => none
  | .fin x => some (if 0 ≤ x then ⌊x⌋ else ⌈x⌉)

/-- The values `draw_gaze` computes when it returns normally: the gaze
direction `dx`, `dy`, the deviation, and the decision. -/
structure GazeResult where
  dx : ℤ
  dy : ℤ
  deviation : PyFloat
  is_looking : Prop

/-- Full trace of `draw_gaze`, `helpers.py` lines 98-145, over the
special-value float model, in source order: `length = x_max - x_min`
(line 112), `dx = int(-length * np.sin(pitch) * np.cos(yaw))`
(line 113), `dy = int(-length * np.sin(yaw))` (line 114), `deviation =
np.sqrt(pitch**2 + yaw**2)` (line 117), decision `deviation <=
attention_threshold` (lines 120, 145).  `none` means the function
raises: each `int(...)` cast is sequenced before anything after it, as
in Python, so a failing cast aborts the call.  The drawing calls act on
an opaque frame and are dropped. -/
noncomputable def draw_gaze_checked (bbox : ℤ × ℤ × ℤ × ℤ)
    (pitch yaw attention_threshold : PyFloat) : Option GazeResult :=
  match (((PyFloat.fin (-((bbox.2.2.1 - bbox.1 : ℤ) : ℝ))).mul
      (npSin pitch)).mul (npCos yaw)).toIntOption with
  | none => none
  | some dx =>
    match ((PyFloat.fin (-((bbox.2.2.1 - bbox.1 : ℤ) : ℝ))).mul
        (npSin yaw)).toIntOption with
    | none => none
    | some dy =>
      some { dx := dx, dy := dy,
             deviation := npSqrt ((pitch.mul pitch).add (yaw.mul yaw)),
             is_looking :=
               (npSqrt ((pitch.mul pitch).add (yaw.mul yaw))).le
                 attention_threshold }

/-! ## Helper lemmas -/

theorem count_true_add_count_false (l : List Bool) :
    l.count true + l.count false = l.length := by
  induction l with
  | nil => rfl
  | cons b t ih => cases b <;> simp [List.count_cons] <;> omega

theorem recordAll_total (l : List Bool) :
    ∀ c : Counters, (recordAll c l).total_faces = c.total_faces + l.length := by
  induction l with
  | nil => intro c; simp [recordAll]
  | cons b t ih =>
    intro c
    have h := ih (draw_bbox_gaze c b)
    simp only [recordAll, List.foldl_cons] at h ⊢
    rw [h]
    cases b <;> (simp [draw_bbox_gaze]; try omega)

theorem recordAll_looks (l : List Bool) :
    ∀ c : Counters, (recordAll c l).looks_count = c.looks_count + l.count true := by
  induction l with
  | nil => intro c; simp [recordAll]
  | cons b t ih =>
    intro c
    have h := ih (draw_bbox_gaze c b)
    simp only [recordAll, List.foldl_cons] at h ⊢
    rw [h]
    cases b <;> (simp [draw_bbox_gaze, List.count_cons]; try omega)

theorem recordAll_no_looks (l : List Bool) :
    ∀ c : Counters,
      (recordAll c l).no_looks_count = c.no_looks_count + l.count false := by
  induction l with
  | nil => intro c; simp [recordAll]
  | cons b t ih =>
    intro c
    have h := ih (draw_bbox_gaze c b)
    simp only [recordAll, List.foldl_cons] at h ⊢
    rw [h]
    cases b <;> (simp [draw_bbox_gaze, List.count_cons]; try omega)

theorem writeAll_writes (ps : List ℚ) :
    ∀ s : WriterState, (writeAll s ps).writes = s.writes ++ List.map format1 ps := by
  induction ps with
  | nil => intro s; simp [writeAll]
  | cons p t ih =>
    intro s
    simp only [writeAll, List.map_cons]
    rw [ih]
    simp

theorem writeAll_stopped (ps : List ℚ) :
    ∀ s : WriterState, (writeAll s ps).stopped = s.stopped := by
  induction ps with
  | nil => intro s; rfl
  | cons p t ih => intro s; simp only [writeAll]; rw [ih]

theorem writeAll_file_mem (ps : List ℚ) :
    ∀ s : WriterState, ps ≠ [] →
      ∃ p ∈ ps, (writeAll s ps).file = some (format1 p) := by
  induction ps with
  | nil => intro s h; exact absurd rfl h
  | cons p t ih =>
    intro s _
    cases t with
    | nil => exact ⟨p, List.mem_cons_self p [], rfl⟩
    | cons q u =>
      obtain ⟨r, hr, hf⟩ := ih _ (List.cons_ne_nil q u)
      exact ⟨r, List.mem_cons_of_mem p hr, hf⟩

theorem writer_run_append (ps : List ℚ) :
    ∀ (s : WriterState) (i : ℕ) (tail : List (Option ℚ)),
      percentage_writer (fun _ => true) s i (List.map some ps ++ tail)
        = percentage_writer (fun _ => true) (writeAll s ps) (i + ps.length) tail := by
  induction ps with
  | nil => intro s i tail; simp [writeAll]
  | cons p t ih =>
    intro s i tail
    simp only [List.map_cons, List.cons_append, percentage_writer, if_true,
      List.append_eq]
    rw [ih]
    have h : i + 1 + t.length = i + (t.length + 1) := by omega
    simp only [writeAll, List.length_cons, h]

theorem writer_all_ok (ps : List ℚ) (s : WriterState) (i : ℕ) :
    percentage_writer (fun _ => true) s i (List.map some ps) = writeAll s ps := by
  have h := writer_run_append ps s i []
  simpa [percentage_writer] using h

theorem writer_no_sentinel_stopped (q : List (Option ℚ)) :
    ∀ (env : ℕ → Bool) (s : WriterState) (i : ℕ),
      (∀ x ∈ q, x ≠ none) → (percentage_writer env s i q).stopped = s.stopped := by
  induction q with
  | nil => intro env s i _; rfl
  | cons x t ih =>
    intro env s i h
    have ht : ∀ y ∈ t, y ≠ none := fun y hy => h y (List.mem_cons_of_mem x hy)
    cases x with
    | none => exact absurd rfl (h none (List.mem_cons_self none t))
    | some p =>
      by_cases he : env i = true
      · rw [show percentage_writer env s i (some p :: t)
              = percentage_writer env
                  { s with file := some (format1 p),
                           writes := s.writes ++ [format1 p] } (i + 1) t from by
            simp [percentage_writer, he]]
        rw [ih env _ (i + 1) ht]
      · rw [show percentage_writer env s i (some p :: t)
              = percentage_writer env
                  { s with errorLog := s.errorLog ++ [errMsg] } (i + 1) t from by
            simp [percentage_writer, he]]
        rw [ih env _ (i + 1) ht]

theorem format1_hundred : format1 100 = "100.0" := by
  have h : (⌊10 * (100 : ℚ) + 1 / 2⌋ : ℤ) = 1000 := by norm_num
  simp only [format1, h]
  decide

/-! ## Claim theorems -/

/-- Claim C1: for every pitch, yaw and attention threshold, the decision
of `draw_gaze` computes the deviation as `sqrt(pitch^2 + yaw^2)` and is
looking exactly when the deviation is at most the threshold (inclusive
at equality), not looking when it is strictly greater; the bounding box
does not enter the decision. -/
theorem draw_gaze_threshold (bbox : ℤ × ℤ × ℤ × ℤ)
    (pitch yaw attention_threshold : ℝ) :
    deviation pitch yaw = Real.sqrt (pitch ^ 2 + yaw ^ 2) ∧
    (Real.sqrt (pitch ^ 2 + yaw ^ 2) ≤ attention_threshold →
      draw_gaze bbox pitch yaw attention_threshold) ∧
    (attention_threshold < Real.sqrt (pitch ^ 2 + yaw ^ 2) →
      ¬draw_gaze bbox pitch yaw attention_threshold) :=
  ⟨rfl, fun h => h, fun h hc => absurd hc (not_le.mpr h)⟩

/-- Witness for C1: at pitch = yaw = 0 and threshold 1/5 the decision is
looking; at pitch = 1, yaw = 0 and threshold 1/2 it is not. -/
theorem draw_gaze_threshold_witness :
    draw_gaze (0, 0, 100, 100) 0 0 (1 / 5) ∧
    ¬draw_gaze (0, 0, 100, 100) 1 0 (1 / 2) := by
  constructor
  · refine (draw_gaze_threshold (0, 0, 100, 100) 0 0 (1 / 5)).2.1 ?_
    rw [show (0 : ℝ) ^ 2 + 0 ^ 2 = 0 by norm_num, Real.sqrt_zero]
    norm_num
  · refine (draw_gaze_threshold (0, 0, 100, 100) 1 0 (1 / 2)).2.2 ?_
    rw [show (1 : ℝ) ^ 2 + 0 ^ 2 = 1 by norm_num, Real.sqrt_one]
    norm_num

/-- Claim C2: starting from zero counters, after any sequence of
recording calls (`draw_bbox_gaze`), `total_faces` equals the number of
calls, `looks_count` equals the number of calls with a looking decision,
and `no_looks_count` equals the rest. -/
theorem recordAll_counts (l : List Bool) :
    (recordAll initCounters l).total_faces = l.length ∧
    (recordAll initCounters l).looks_count = l.count true ∧
    (recordAll initCounters l).no_looks_count = l.length - l.count true := by
  have ht := recordAll_total l initCounters
  have hl := recordAll_looks l initCounters
  have hn := recordAll_no_looks l initCounters
  have hc := count_true_add_count_false l
  rw [show initCounters.total_faces = 0 from rfl, Nat.zero_add] at ht
  rw [show initCounters.looks_count = 0 from rfl, Nat.zero_add] at hl
  rw [show initCounters.no_looks_count = 0 from rfl, Nat.zero_add] at hn
  exact ⟨ht, hl, by rw [hn]; omega⟩

/-- Claim C3: `looking_percentage` returns exactly 0 when `total_faces`
is zero, and `100 * looks_count / total_faces` otherwise; the division
is guarded by the `total_faces > 0` test. -/
theorem looking_percentage_guarded (c : Counters) :
    (c.total_faces = 0 → looking_percentage c = 0) ∧
    (c.total_faces ≠ 0 →
      looking_percentage c
        = 100 * (c.looks_count : ℚ) / (c.total_faces : ℚ)) := by
  constructor
  · intro h
    simp [looking_percentage, h]
  · intro h
    have hp : 0 < c.total_faces := Nat.pos_of_ne_zero h
    simp only [looking_percentage, if_pos hp]
    ring

/-- Witness for C3: the zero state yields 0, and the state with 2 of 3
faces looking yields 200/3. -/
theorem looking_percentage_guarded_witness :
    looking_percentage ⟨0, 0, 0⟩ = 0 ∧
    looking_percentage ⟨2, 1, 3⟩ = 200 / 3 := by
  constructor
  · exact (looking_percentage_guarded ⟨0, 0, 0⟩).1 rfl
  · have h := (looking_percentage_guarded ⟨2, 1, 3⟩).2 (by decide)
    rw [h]
    norm_num

/-- Claim C4: with every write succeeding, the worker persists samples
in enqueue (FIFO) order — the trace of completed writes is the formatted
queue, in order — and after draining the queue 10.0, 55.55, 100.0 from
the initial state the file contains exactly the text "100.0". -/
theorem writer_fifo_last_value :
    (∀ (s : WriterState) (i : ℕ) (ps : List ℚ),
      (percentage_writer (fun _ => true) s i (List.map some ps)).writes
        = s.writes ++ List.map format1 ps) ∧
    (percentage_writer (fun _ => true) initWriter 0
        [some 10, some 55.55, some 100]).file = some "100.0" := by
  constructor
  · intro s i ps
    rw [writer_all_ok, writeAll_writes]
  · rw [show ([some 10, some 55.55, some 100] : List (Option ℚ))
          = List.map some [10, 55.55, 100] from rfl,
        writer_all_ok]
    simp [writeAll, format1_hundred]

/-- Claim C5: on dequeuing the sentinel the worker stops at once — the
resulting state only sets the stopped flag, independently of anything
behind the sentinel in the queue, with no write for the sentinel — and
after a nonempty run of samples followed by the sentinel the worker has
stopped and the file holds the formatted value of one of the samples. -/
theorem writer_sentinel_stop :
    (∀ (env : ℕ → Bool) (s : WriterState) (i : ℕ) (rest : List (Option ℚ)),
      percentage_writer env s i (none :: rest) = { s with stopped := true }) ∧
    (∀ ps : List ℚ, ps ≠ [] →
      (percentage_writer (fun _ => true) initWriter 0
          (List.map some ps ++ [none])).stopped = true ∧
      ∃ p ∈ ps,
        (percentage_writer (fun _ => true) initWriter 0
            (List.map some ps ++ [none])).file = some (format1 p)) := by
  constructor
  · intro env s i rest
    rfl
  · intro ps hps
    rw [writer_run_append]
    constructor
    · simp [percentage_writer]
    · obtain ⟨p, hp, hf⟩ := writeAll_file_mem ps initWriter hps
      exact ⟨p, hp, by simp [percentage_writer, hf]⟩

/-- Witness for C5: five samples then the sentinel — the worker stops
and the file holds a formatted value of one of the five samples. -/
theorem writer_sentinel_stop_witness :
    (percentage_writer (fun _ => true) initWriter 0
        (List.map some [10, 20, 30, 40, 50] ++ [none])).stopped = true ∧
    ∃ p ∈ ([10, 20, 30, 40, 50] : List ℚ),
      (percentage_writer (fun _ => true) initWriter 0
          (List.map some [10, 20, 30, 40, 50] ++ [none])).file
        = some (format1 p) :=
  writer_sentinel_stop.2 [10, 20, 30, 40, 50] (by decide)

/-- Claim C6: a failing write is contained in the worker — the failure
only appends an error-log entry and the worker goes on to the next
sample — and the worker never exits its loop on account of failures: on
any queue without a sentinel the stopped flag is unchanged, whatever the
write outcomes. -/
theorem writer_failure_contained :
    (∀ (env : ℕ → Bool) (s : WriterState) (i : ℕ) (p : ℚ)
        (rest : List (Option ℚ)),
      env i = false →
        percentage_writer env s i (some p :: rest)
          = percentage_writer env
              { s with errorLog := s.errorLog ++ [errMsg] } (i + 1) rest) ∧
    (∀ (env : ℕ → Bool) (s : WriterState) (i : ℕ) (q : List (Option ℚ)),
      (∀ x ∈ q, x ≠ none) →
        (percentage_writer env s i q).stopped = s.stopped) := by
  constructor
  · intro env s i p rest h
    simp [percentage_writer, h]
  · intro env s i q h
    exact writer_no_sentinel_stopped q env s i h

/-- Witness for C6: with every write failing, the first sample is
skipped with an error logged and the next sample is still processed,
and the worker does not stop. -/
theorem writer_failure_contained_witness :
    percentage_writer (fun _ => false) initWriter 0 [some 10, some 20]
      = percentage_writer (fun _ => false)
          { initWriter with errorLog := initWriter.errorLog ++ [errMsg] }
          1 [some 20] ∧
    (percentage_writer (fun _ => false) initWriter 0
        [some 10, some 20]).stopped = initWriter.stopped :=
  ⟨writer_failure_contained.1 (fun _ => false) initWriter 0 10 [some 20] rfl,
   writer_failure_contained.2 (fun _ => false) initWriter 0
     [some 10, some 20] (by decide)⟩

/-- Counterexample to C7 as stated: during the overwrite of "10.0" by
"20.0" a reader can observe the empty (truncated) file, which is neither
the previous nor the new value — `open(filepath, 'w')` truncates before
`f.write` runs, so replacement is not atomic. -/
theorem overwrite_truncation_observable :
    "" ∈ overwriteObservable "10.0" "20.0" ∧ "" ≠ "10.0" ∧ "" ≠ "20.0" := by
  decide

/-- Claim C7 amended: each completed write fully replaces the file
contents with the new value — the last observable state of an overwrite
is the new contents — but replacement is not atomic: a reader observes
the previous contents, the empty (truncated) file, or the new
contents. -/
theorem overwrite_states_classified (prev next : String) :
    (∀ o ∈ overwriteObservable prev next, o = prev ∨ o = "" ∨ o = next) ∧
    (overwriteObservable prev next).getLast? = some next := by
  constructor
  · intro o ho
    simp only [overwriteObservable, List.mem_cons, List.mem_singleton,
      List.not_mem_nil, or_false] at ho
    exact ho
  · rfl

/-- Witness for C7 amended: the truncated state observed while "10.0"
is overwritten by "20.0" is classified, and the final observable state
is "20.0". -/
theorem overwrite_states_classified_witness :
    ("" = "10.0" ∨ "" = "" ∨ "" = "20.0") ∧
    (overwriteObservable "10.0" "20.0").getLast? = some "20.0" :=
  ⟨(overwrite_states_classified "10.0" "20.0").1 "" (by decide),
   (overwrite_states_classified "10.0" "20.0").2⟩

/-- Claim C8, settled against the code: for every NaN or infinite pitch
or yaw, `draw_gaze` does not reach the deviation computation at all — it
raises at the integer casts of the gaze direction (`helpers.py`
lines 113-114), because `np.sin`/`np.cos` of a non-finite angle is NaN
and `int(NaN)` raises — so no attention decision is returned,
contradicting the claim that the computation does not fail and yields
is_looking = false. -/
theorem draw_gaze_nonfinite_raises (bbox : ℤ × ℤ × ℤ × ℤ)
    (pitch yaw attention_threshold : PyFloat)
    (h : pitch.nonfinite ∨ yaw.nonfinite) :
    draw_gaze_checked bbox pitch yaw attention_threshold = none := by
  rcases h with hp | hy
  · cases pitch with
    | nan => cases yaw <;> rfl
    | posInf => cases yaw <;> rfl
    | negInf => cases yaw <;> rfl
    | fin x => simp [PyFloat.nonfinite] at hp
  · cases yaw with
    | nan => cases pitch <;> rfl
    | posInf => cases pitch <;> rfl
    | negInf => cases pitch <;> rfl
    | fin x => simp [PyFloat.nonfinite] at hy

/-- Witness for C8: at bbox (0,0,100,100), pitch NaN, yaw 0 and
threshold 1/5, the call raises instead of returning a decision. -/
theorem draw_gaze_nonfinite_raises_witness :
    draw_gaze_checked (0, 0, 100, 100) PyFloat.nan (PyFloat.fin 0)
      (PyFloat.fin (1 / 5)) = none :=
  draw_gaze_nonfinite_raises (0, 0, 100, 100) PyFloat.nan (PyFloat.fin 0)
    (PyFloat.fin (1 / 5)) (Or.inl trivial)

/-- Claim C9: from any counter state reachable from zero by recording,
`draw_stats` enqueues exactly the current `looking_percentage`, and that
sample lies in [0, 100]. -/
theorem percentage_sample_range (l : List Bool) (q : List (Option ℚ)) :
    (draw_stats (recordAll initCounters l) q).2
      = q ++ [some (looking_percentage (recordAll initCounters l))] ∧
    0 ≤ looking_percentage (recordAll initCounters l) ∧
    looking_percentage (recordAll initCounters l) ≤ 100 := by
  refine ⟨rfl, ?_, ?_⟩ <;>
  · have hl := recordAll_looks l initCounters
    have ht := recordAll_total l initCounters
    rw [show initCounters.looks_count = 0 from rfl, Nat.zero_add] at hl
    rw [show initCounters.total_faces = 0 from rfl, Nat.zero_add] at ht
    have hkn : (recordAll initCounters l).looks_count
        ≤ (recordAll initCounters l).total_faces := by
      rw [hl, ht]
      exact List.count_le_length true l
    by_cases hp : 0 < (recordAll initCounters l).total_faces
    · have hn : (0 : ℚ) < ((recordAll initCounters l).total_faces : ℚ) := by
        exact_mod_cast hp
      have hk : ((recordAll initCounters l).looks_count : ℚ)
          ≤ ((recordAll initCounters l).total_faces : ℚ) := by
        exact_mod_cast hkn
      simp only [looking_percentage, if_pos hp]
      first
      | positivity
      | calc ((recordAll initCounters l).looks_count : ℚ)
              / ((recordAll initCounters l).total_faces : ℚ) * 100
            ≤ 1 * 100 := by
              have h1 := (div_le_one hn).mpr hk
              nlinarith
          _ = 100 := one_mul 100
    · simp [looking_percentage, hp]

/-- Claim C10: `draw_stats` leaves the counters unchanged, appends
exactly one sample — the current `looking_percentage` — to the queue,
and does nothing else to the model state. -/
theorem draw_stats_effect (c : Counters) (q : List (Option ℚ)) :
    (draw_stats c q).1 = c ∧
    (draw_stats c q).2 = q ++ [some (looking_percentage c)] ∧
    (draw_stats c q).2.length = q.length + 1 := by
  refine ⟨rfl, rfl, ?_⟩
  simp [draw_stats]

end AttentionDetector
